import Mathlib

/-!
Shallow embedding of `blockchainetl_common/streaming/streamer.py`
(blockchain-etl/blockchain-etl-common).

File contents are modelled as values: a checkpoint file is an
`Option String` (`none` when the file does not exist on disk), Python
exceptions are modelled with `Except`, and the adapter's fallible calls
(`get_current_block_number`, `export_all`) are supplied as oracle values.
-/

/-- Decimal digits of a natural number, most significant digit first.
Models the digit run produced by Python `str` on a non-negative int. -/
def natToDigitList (n : Nat) : List Nat :=
  if _h : n < 10 then [n]
  else natToDigitList (n / 10) ++ [n % 10]
termination_by n
decreasing_by exact Nat.div_lt_self (by omega) (by omega)

/-- Numeric value of a most-significant-first digit list. -/
def digitsToNat (ds : List Nat) : Nat :=
  ds.foldl (fun a d => a * 10 + d) 0

theorem foldl_digits_append (ds : List Nat) (a d : Nat) :
    (ds ++ [d]).foldl (fun a d => a * 10 + d) a
      = (ds.foldl (fun a d => a * 10 + d) a) * 10 + d := by
  simp [List.foldl_append]

theorem digitsToNat_natToDigitList (n : Nat) :
    digitsToNat (natToDigitList n) = n := by
  induction n using Nat.strong_induction_on with
  | _ n ih =>
    rw [natToDigitList]
    split
    · simp [digitsToNat]
    · rename_i h
      have hlt : n / 10 < n := Nat.div_lt_self (by omega) (by omega)
      have hrec := ih (n / 10) hlt
      unfold digitsToNat at hrec ⊢
      rw [foldl_digits_append, hrec]
      omega

theorem natToDigitList_lt_ten (n : Nat) : ∀ d ∈ natToDigitList n, d < 10 := by
  induction n using Nat.strong_induction_on with
  | _ n ih =>
    rw [natToDigitList]
    split
    · rename_i h
      intro d hd
      simp at hd
      omega
    · rename_i h
      intro d hd
      rcases List.mem_append.mp hd with hd | hd
      · exact ih (n / 10) (Nat.div_lt_self (by omega) (by omega)) d hd
      · simp at hd
        omega

theorem natToDigitList_ne_nil (n : Nat) : natToDigitList n ≠ [] := by
  rw [natToDigitList]
  split <;> simp

/-- The ASCII character for a single decimal digit. -/
def digitToChar (d : Nat) : Char := Char.ofNat (48 + d)

theorem digitToChar_isDigit {d : Nat} (h : d < 10) :
    (digitToChar d).isDigit = true := by
  interval_cases d <;> decide

theorem digitToChar_not_whitespace {d : Nat} (h : d < 10) :
    (digitToChar d).isWhitespace = false := by
  interval_cases d <;> decide

theorem digitToChar_toNat {d : Nat} (h : d < 10) :
    (digitToChar d).toNat - 48 = d := by
  interval_cases d <;> decide

theorem digitToChar_ne_minus {d : Nat} (h : d < 10) : digitToChar d ≠ '-' := by
  interval_cases d <;> decide

theorem digitToChar_ne_plus {d : Nat} (h : d < 10) : digitToChar d ≠ '+' := by
  interval_cases d <;> decide

/-- Character list of Python `str(n)` for a natural number. -/
def pyStrNat (n : Nat) : List Char := (natToDigitList n).map digitToChar

/-- Python `str(v)` on an int: optional minus sign followed by decimal digits. -/
def pyStr (v : Int) : String :=
  if v < 0 then String.mk ('-' :: pyStrNat v.natAbs)
  else String.mk (pyStrNat v.toNat)

/-- Value of a run of decimal digit characters; `none` if empty or not all digits. -/
def parseDigits (cs : List Char) : Option Nat :=
  if cs = [] then none
  else if cs.all Char.isDigit then
    some (digitsToNat (cs.map fun c => c.toNat - 48))
  else none

/-- Strip leading and trailing whitespace, as Python `int` does before parsing. -/
def pyStrip (cs : List Char) : List Char :=
  ((cs.dropWhile Char.isWhitespace).reverse.dropWhile Char.isWhitespace).reverse

/-- Models Python `int(s)`: strip whitespace, optional sign, decimal digits. -/
def pyIntParse (s : String) : Option Int :=
  match pyStrip s.data with
  | [] => none
  | c :: rest =>
    if c = '-' then (parseDigits rest).map fun n => -(n : Int)
    else if c = '+' then (parseDigits rest).map fun n => (n : Int)
    else (parseDigits (c :: rest)).map fun n => (n : Int)

theorem dropWhile_eq_self_of_not (p : Char → Bool) (l : List Char)
    (h : ∀ c ∈ l, p c = false) : l.dropWhile p = l := by
  cases l with
  | nil => rfl
  | cons c cs => simp [List.dropWhile_cons, h c (by simp)]

theorem pyStrip_append_newline (l : List Char)
    (h : ∀ c ∈ l, c.isWhitespace = false) : pyStrip (l ++ ['\n']) = l := by
  cases l with
  | nil => rfl
  | cons c cs =>
    have hc : c.isWhitespace = false := h c (by simp)
    have h1 : List.dropWhile Char.isWhitespace ((c :: cs) ++ ['\n'])
        = (c :: cs) ++ ['\n'] := by
      rw [List.cons_append, List.dropWhile_cons, hc]
      simp
    have h2 : ((c :: cs) ++ ['\n']).reverse = '\n' :: (c :: cs).reverse := by
      simp
    have h3 : List.dropWhile Char.isWhitespace ('\n' :: (c :: cs).reverse)
        = List.dropWhile Char.isWhitespace ((c :: cs).reverse) := by
      rw [List.dropWhile_cons, if_pos (by decide)]
    have h4 : List.dropWhile Char.isWhitespace ((c :: cs).reverse)
        = (c :: cs).reverse := by
      apply dropWhile_eq_self_of_not
      intro x hx
      exact h x (List.mem_reverse.mp hx)
    unfold pyStrip
    rw [h1, h2, h3, h4, List.reverse_reverse]

theorem pyStrNat_ne_nil (n : Nat) : pyStrNat n ≠ [] := by
  unfold pyStrNat
  simp [natToDigitList_ne_nil]

theorem pyStrNat_all_digit (n : Nat) : (pyStrNat n).all Char.isDigit = true := by
  rw [List.all_eq_true]
  intro c hc
  rw [pyStrNat, List.mem_map] at hc
  obtain ⟨d, hd, rfl⟩ := hc
  exact digitToChar_isDigit (natToDigitList_lt_ten n d hd)

theorem pyStrNat_not_whitespace (n : Nat) :
    ∀ c ∈ pyStrNat n, c.isWhitespace = false := by
  intro c hc
  rw [pyStrNat, List.mem_map] at hc
  obtain ⟨d, hd, rfl⟩ := hc
  exact digitToChar_not_whitespace (natToDigitList_lt_ten n d hd)

theorem map_digit_inverse (ds : List Nat) (h : ∀ d ∈ ds, d < 10) :
    (ds.map fun d => (digitToChar d).toNat - 48) = ds := by
  induction ds with
  | nil => rfl
  | cons d ds ih =>
    rw [List.map_cons]
    rw [digitToChar_toNat (h d (by simp)), ih (fun x hx => h x (by simp [hx]))]

theorem parseDigits_pyStrNat (n : Nat) : parseDigits (pyStrNat n) = some n := by
  unfold parseDigits
  rw [if_neg (pyStrNat_ne_nil n), if_pos (pyStrNat_all_digit n)]
  rw [pyStrNat, List.map_map]
  have hmap : ((natToDigitList n).map fun d => (digitToChar d).toNat - 48)
      = natToDigitList n := map_digit_inverse _ (natToDigitList_lt_ten n)
  have hcomp : ((fun c : Char => c.toNat - 48) ∘ digitToChar)
      = fun d => (digitToChar d).toNat - 48 := rfl
  rw [hcomp, hmap, digitsToNat_natToDigitList]

theorem pyRoundTrip (v : Int) : pyIntParse (pyStr v ++ "\n") = some v := by
  by_cases hv : v < 0
  · rw [pyStr, if_pos hv]
    have hdata : (String.mk ('-' :: pyStrNat v.natAbs) ++ "\n").data
        = ('-' :: pyStrNat v.natAbs) ++ ['\n'] := by
      rw [String.data_append]
    have hstrip : pyStrip (('-' :: pyStrNat v.natAbs) ++ ['\n'])
        = '-' :: pyStrNat v.natAbs := by
      apply pyStrip_append_newline
      intro c hc
      rcases List.mem_cons.mp hc with hc | hc
      · subst hc
        decide
      · exact pyStrNat_not_whitespace _ c hc
    rw [pyIntParse, hdata, hstrip]
    simp only [if_pos rfl]
    rw [parseDigits_pyStrNat]
    simp [abs_of_neg hv]
  · rw [pyStr, if_neg hv]
    obtain ⟨c, cs, hccs⟩ : ∃ c cs, pyStrNat v.toNat = c :: cs := by
      cases hp : pyStrNat v.toNat with
      | nil => exact absurd hp (pyStrNat_ne_nil _)
      | cons c cs => exact ⟨c, cs, rfl⟩
    have hcdigit : c.isDigit = true := by
      have := pyStrNat_all_digit v.toNat
      rw [List.all_eq_true] at this
      exact this c (by rw [hccs]; simp)
    have hcd : ∃ d, d < 10 ∧ c = digitToChar d := by
      have hmem : c ∈ pyStrNat v.toNat := by
        rw [hccs]
        simp
      rw [pyStrNat, List.mem_map] at hmem
      obtain ⟨d, hd, rfl⟩ := hmem
      exact ⟨d, natToDigitList_lt_ten _ d hd, rfl⟩
    obtain ⟨d, hd10, rfl⟩ := hcd
    have hdata : (String.mk (pyStrNat v.toNat) ++ "\n").data
        = pyStrNat v.toNat ++ ['\n'] := by
      rw [String.data_append]
    have hstrip : pyStrip (pyStrNat v.toNat ++ ['\n']) = pyStrNat v.toNat :=
      pyStrip_append_newline _ (pyStrNat_not_whitespace _)
    rw [pyIntParse, hdata, hstrip, hccs]
    simp only [if_neg (digitToChar_ne_minus hd10), if_neg (digitToChar_ne_plus hd10)]
    rw [← hccs, parseDigits_pyStrNat]
    simp
    omega

/-- Models `write_last_synced_block(file, v)`: the file content it writes,
namely `str(v) + '\n'`. -/
def write_last_synced_block (last_synced_block : Int) : String :=
  pyStr last_synced_block ++ "\n"

/-- Models `read_last_synced_block(file)`: parse the file content with
Python `int`; `none` models the `ValueError` raised on unparseable content. -/
def read_last_synced_block (content : String) : Option Int :=
  pyIntParse content

theorem read_write_round_trip (v : Int) :
    read_last_synced_block (write_last_synced_block v) = some v :=
  pyRoundTrip v

/-- Python errors raised by the streamer code. -/
inductive PyError where
  | valueError : PyError
  | ioError : PyError
deriving DecidableEq, Repr

/-- Models `init_last_synced_block_file(start_block, last_synced_block_file)`:
raises `ValueError` when the file already exists, otherwise writes
`start_block` to it. Returns the outcome together with the resulting file. -/
def init_last_synced_block_file (start_block : Int) (file : Option String) :
    Except PyError Unit × Option String :=
  match file with
  | some c => (.error .valueError, some c)
  | none => (.ok (), some (write_last_synced_block start_block))

/-- Models the checkpoint part of `Streamer.__init__`: initialize the
checkpoint file when a start block is given or the file is missing, then
read the last synced block from it. Returns the last synced block (or the
raised error) together with the resulting file. -/
def streamer_init (start_block : Option Int) (file : Option String) :
    Except PyError Int × Option String :=
  let step : Except PyError Unit × Option String :=
    if start_block.isSome || file.isNone then
      init_last_synced_block_file (start_block.getD 0 - 1) file
    else (.ok (), file)
  match step with
  | (.error e, file2) => (.error e, file2)
  | (.ok _, file2) =>
    match file2 with
    | none => (.error .ioError, file2)
    | some c =>
      match read_last_synced_block c with
      | some v => (.ok v, file2)
      | none => (.error .valueError, file2)

/-- Configuration of a `Streamer` instance (immutable after construction). -/
structure SyncConfig where
  lag : Int
  end_block : Option Int
  block_batch_size : Int
  ramp_up_blocks : Int
  retry_errors : Bool

/-- Mutable state of a `Streamer` instance, together with the content of the
checkpoint file (`none` when it does not exist). -/
structure StreamerState where
  last_synced_block : Int
  processed_blocks_count : Int
  checkpoint : Option String
deriving DecidableEq

/-- Responses of the blockchain streamer adapter during one sync cycle:
the result of `get_current_block_number()` and, as a function of the range,
the result of `export_all(start, end)`. -/
structure CycleOracle (ε : Type) where
  head : Except ε Int
  export_all : Int → Int → Except ε Unit

/-- Outcome of one `_sync_cycle` call: the returned `blocks_to_sync` or the
raised error, the streamer state after the call, and the range passed to
`export_all` when it was invoked. -/
structure CycleOutcome (ε : Type) where
  result : Except ε Int
  state : StreamerState
  export_call : Option (Int × Int)

/-- Models `Streamer._calculate_target_block`. -/
def calculate_target_block (lag : Int) (end_block : Option Int)
    (current_block last_synced_block block_batch_size : Int) : Int :=
  let t1 := current_block - lag
  let t2 := min t1 (last_synced_block + block_batch_size)
  match end_block with
  | some e => min t2 e
  | none => t2

/-- The batch size chosen at the start of `Streamer._sync_cycle`:
`1` when `ramp_up_blocks` is truthy, positive and not yet exceeded by
`processed_blocks_count`, else `block_batch_size`. -/
def effective_batch_size (ramp_up_blocks processed_blocks_count
    block_batch_size : Int) : Int :=
  if ramp_up_blocks ≠ 0 ∧ 0 < ramp_up_blocks ∧
      processed_blocks_count ≤ ramp_up_blocks then 1
  else block_batch_size

/-- The `target_block` a sync cycle computes (lines 114-119 of the source):
`_calculate_target_block` applied to the effective batch size. -/
def cycle_target (cfg : SyncConfig) (current_block : Int) (s : StreamerState) :
    Int :=
  calculate_target_block cfg.lag cfg.end_block current_block
    s.last_synced_block
    (effective_batch_size cfg.ramp_up_blocks s.processed_blocks_count
      cfg.block_batch_size)

/-- The `blocks_to_sync` a sync cycle computes (line 120 of the source):
`max(target_block - last_synced_block, 0)`. -/
def cycle_blocks_to_sync (cfg : SyncConfig) (current_block : Int)
    (s : StreamerState) : Int :=
  max (cycle_target cfg current_block s - s.last_synced_block) 0

/-- Models `Streamer._sync_cycle`, with the adapter's answers supplied by the
oracle `o`. On an adapter error no mutation has happened yet, so the state is
returned unchanged. -/
def sync_cycle (cfg : SyncConfig) (o : CycleOracle ε) (s : StreamerState) :
    CycleOutcome ε :=
  match o.head with
  | .error e => ⟨.error e, s, none⟩
  | .ok current_block =>
    if cycle_blocks_to_sync cfg current_block s ≠ 0 then
      match o.export_all (s.last_synced_block + 1)
          (cycle_target cfg current_block s) with
      | .error e =>
        ⟨.error e, s,
         some (s.last_synced_block + 1, cycle_target cfg current_block s)⟩
      | .ok _ =>
        ⟨.ok (cycle_blocks_to_sync cfg current_block s),
         { last_synced_block := cycle_target cfg current_block s,
           processed_blocks_count := s.processed_blocks_count
             + cycle_blocks_to_sync cfg current_block s,
           checkpoint := some (write_last_synced_block
             (cycle_target cfg current_block s)) },
         some (s.last_synced_block + 1, cycle_target cfg current_block s)⟩
    else ⟨.ok (cycle_blocks_to_sync cfg current_block s), s, none⟩

/-- The `while` guard of `Streamer._do_stream`:
`end_block is None or last_synced_block < end_block`. -/
def continue_condition (cfg : SyncConfig) (s : StreamerState) : Bool :=
  match cfg.end_block with
  | none => true
  | some e => decide (s.last_synced_block < e)

/-- Models `Streamer._do_stream`, run against a finite list of per-cycle
adapter oracles (the loop stops early when the `end_block` guard fails, and
aborts with the cycle's error when `retry_errors` is false). The idle sleep
is not modelled. -/
def do_stream (cfg : SyncConfig) (os : List (CycleOracle ε))
    (s : StreamerState) : Except ε Unit × StreamerState :=
  match os with
  | [] => (.ok (), s)
  | o :: rest =>
    if continue_condition cfg s then
      match (sync_cycle cfg o s).result with
      | .error e =>
        if cfg.retry_errors then do_stream cfg rest (sync_cycle cfg o s).state
        else (.error e, (sync_cycle cfg o s).state)
      | .ok _ => do_stream cfg rest (sync_cycle cfg o s).state
    else (.ok (), s)

/-- Models `Streamer.stream`: open the adapter (whose outcome is supplied as
`open_result`), run `_do_stream`, and in all cases run the `finally` block,
which calls `close()` exactly once. The last component counts the `close()`
invocations performed by the `finally` block. -/
def stream (cfg : SyncConfig) (open_result : Except ε Unit)
    (os : List (CycleOracle ε)) (s : StreamerState) :
    Except ε Unit × StreamerState × Nat :=
  match open_result with
  | .error e => (.error e, s, 1)
  | .ok _ =>
    match do_stream cfg os s with
    | (r, s2) => (r, s2, 1)

/-- The integer currently persisted in the checkpoint file, if any. -/
def checkpoint_value (s : StreamerState) : Option Int :=
  match s.checkpoint with
  | none => none
  | some c => read_last_synced_block c

/-- The persisted checkpoint parses back to the in-memory last synced block. -/
def checkpoint_in_sync (s : StreamerState) : Prop :=
  checkpoint_value s = some s.last_synced_block

theorem sync_cycle_head_error (cfg : SyncConfig) (o : CycleOracle ε)
    (s : StreamerState) (e : ε) (ho : o.head = .error e) :
    sync_cycle cfg o s = ⟨.error e, s, none⟩ := by
  unfold sync_cycle
  rw [ho]

theorem sync_cycle_zero (cfg : SyncConfig) (o : CycleOracle ε)
    (s : StreamerState) (cur : Int) (ho : o.head = .ok cur)
    (hb : cycle_blocks_to_sync cfg cur s = 0) :
    sync_cycle cfg o s = ⟨.ok 0, s, none⟩ := by
  unfold sync_cycle
  rw [ho]
  simp only [hb]
  simp

theorem sync_cycle_export_err (cfg : SyncConfig) (o : CycleOracle ε)
    (s : StreamerState) (cur : Int) (e : ε) (ho : o.head = .ok cur)
    (hb : cycle_blocks_to_sync cfg cur s ≠ 0)
    (hx : o.export_all (s.last_synced_block + 1) (cycle_target cfg cur s)
      = .error e) :
    sync_cycle cfg o s
      = ⟨.error e, s, some (s.last_synced_block + 1, cycle_target cfg cur s)⟩ := by
  unfold sync_cycle
  rw [ho]
  simp only [if_pos hb, hx]

theorem sync_cycle_export_ok (cfg : SyncConfig) (o : CycleOracle ε)
    (s : StreamerState) (cur : Int) (ho : o.head = .ok cur)
    (hb : cycle_blocks_to_sync cfg cur s ≠ 0)
    (hx : o.export_all (s.last_synced_block + 1) (cycle_target cfg cur s)
      = .ok ()) :
    sync_cycle cfg o s
      = ⟨.ok (cycle_blocks_to_sync cfg cur s),
         { last_synced_block := cycle_target cfg cur s,
           processed_blocks_count := s.processed_blocks_count
             + cycle_blocks_to_sync cfg cur s,
           checkpoint := some (write_last_synced_block
             (cycle_target cfg cur s)) },
         some (s.last_synced_block + 1, cycle_target cfg cur s)⟩ := by
  unfold sync_cycle
  rw [ho]
  simp only [if_pos hb, hx]

theorem sync_cycle_error_unchanged (cfg : SyncConfig) (o : CycleOracle ε)
    (s : StreamerState) (e : ε)
    (h : (sync_cycle cfg o s).result = .error e) :
    (sync_cycle cfg o s).state = s := by
  cases ho : o.head with
  | error e0 =>
    rw [sync_cycle_head_error cfg o s e0 ho]
  | ok cur =>
    by_cases hb : cycle_blocks_to_sync cfg cur s ≠ 0
    · cases hx : o.export_all (s.last_synced_block + 1)
          (cycle_target cfg cur s) with
      | error e0 =>
        rw [sync_cycle_export_err cfg o s cur e0 ho hb hx]
      | ok u =>
        cases u
        rw [sync_cycle_export_ok cfg o s cur ho hb hx] at h
        exact absurd h (by simp)
    · rw [sync_cycle_zero cfg o s cur ho (not_not.mp hb)] at h
      exact absurd h (by simp)

/-- Claim C1: for every current head, last synced block, lag, batch width and
optional end bound, `_calculate_target_block` returns the head minus the lag,
clamped by min with last synced plus batch width and then, when an end bound
is set, by min with the end bound; the resulting `blocks_to_sync` equals
`max(target - last_synced, 0)`, hence is never negative, and a cycle whose
adapter calls succeed returns exactly that value. -/
theorem claim_C1 (lag cur last bw : Int) (endb : Option Int)
    (cfg : SyncConfig) (o : CycleOracle ε) (s : StreamerState) :
    (calculate_target_block lag endb cur last bw =
      match endb with
      | some e => min (min (cur - lag) (last + bw)) e
      | none => min (cur - lag) (last + bw)) ∧
    (0 ≤ max (calculate_target_block lag endb cur last bw - last) 0) ∧
    (∀ c2, o.head = .ok c2 → (∀ a b, o.export_all a b = .ok ()) →
      (sync_cycle cfg o s).result
        = .ok (max (cycle_target cfg c2 s - s.last_synced_block) 0)) := by
  refine ⟨?_, le_max_right _ _, ?_⟩
  · cases endb <;> rfl
  · intro c2 ho hx
    by_cases hb : cycle_blocks_to_sync cfg c2 s ≠ 0
    · rw [sync_cycle_export_ok cfg o s c2 ho hb (hx _ _)]
      rfl
    · have hz : cycle_blocks_to_sync cfg c2 s = 0 := not_not.mp hb
      rw [sync_cycle_zero cfg o s c2 ho hz]
      have hz2 : max (cycle_target cfg c2 s - s.last_synced_block) 0 = 0 := hz
      rw [hz2]

theorem claim_C1_witness :
    (0 ≤ max (calculate_target_block 10 none 150 99 20 - 99) 0) ∧
    (sync_cycle (⟨10, none, 20, 0, true⟩ : SyncConfig)
        (⟨.ok 150, fun _ _ => .ok ()⟩ : CycleOracle PyError)
        ⟨99, 0, none⟩).result
      = .ok (max (cycle_target ⟨10, none, 20, 0, true⟩ 150 ⟨99, 0, none⟩ - 99) 0) :=
  ⟨(claim_C1 10 150 99 20 none ⟨10, none, 20, 0, true⟩
      (⟨.ok 150, fun _ _ => .ok ()⟩ : CycleOracle PyError) ⟨99, 0, none⟩).2.1,
   (claim_C1 10 150 99 20 none ⟨10, none, 20, 0, true⟩
      (⟨.ok 150, fun _ _ => .ok ()⟩ : CycleOracle PyError) ⟨99, 0, none⟩).2.2
     150 rfl (fun _ _ => rfl)⟩

/-- Claim C2 counterexample: for lastSynced = 99, currentHead = 150,
lag = 10, batchWidth = 20 and no end bound, the code computes target 119,
not 120, and blocks_to_sync 20, not 21 (the batch clamp is
min(140, 99 + 20) = 119). -/
theorem claim_C2_counterexample :
    calculate_target_block 10 none 150 99 20 ≠ 120 ∧
    max (calculate_target_block 10 none 150 99 20 - 99) 0 ≠ 21 := by
  decide

/-- Claim C2 amended: for lastSynced = 99, currentHead = 150, lag = 10,
batchWidth = 20 and no end bound, the target is 119 and blocks_to_sync
is 20. -/
theorem claim_C2_amended :
    calculate_target_block 10 none 150 99 20 = 119 ∧
    max (calculate_target_block 10 none 150 99 20 - 99) 0 = 20 := by
  decide

/-- Claim C3 counterexample: with rampUpBlocks = 0 (which satisfies the
claim's rampUpBlocks >= 0) and processedBlocksCount = 0 <= rampUpBlocks, the
effective batch width is the blockBatchSize (here 10), not 1, because the
guard `ramp_up_blocks and ramp_up_blocks > 0 and ...` is falsy when
ramp_up_blocks is 0. -/
theorem claim_C3_counterexample :
    (0 : Int) ≤ 0 ∧ effective_batch_size 0 0 10 = 10 ∧
      effective_batch_size 0 0 10 ≠ 1 := by
  refine ⟨le_refl 0, ?_, ?_⟩ <;> decide

/-- Claim C3 amended: when rampUpBlocks is strictly positive and
processedBlocksCount <= rampUpBlocks, the effective batch width is exactly
1; in every other cycle (including every cycle of a configuration with
rampUpBlocks = 0) it is blockBatchSize. -/
theorem claim_C3_amended (r c b : Int) :
    (0 < r → c ≤ r → effective_batch_size r c b = 1) ∧
    (¬(0 < r ∧ c ≤ r) → effective_batch_size r c b = b) := by
  constructor
  · intro hr hc
    rw [effective_batch_size, if_pos ⟨by omega, hr, hc⟩]
  · intro h
    rw [effective_batch_size, if_neg]
    intro hcond
    exact h ⟨hcond.2.1, hcond.2.2⟩

theorem claim_C3_witness :
    effective_batch_size 2 1 10 = 1 ∧ effective_batch_size 2 3 10 = 10 :=
  ⟨(claim_C3_amended 2 1 10).1 (by decide) (by decide),
   (claim_C3_amended 2 3 10).2 (by decide)⟩

/-- Claim C4: a cycle in which the adapter's head query or export raises
performs no checkpoint write and returns the streamer state exactly as it
was before the cycle; and whenever the checkpoint changed, the export was
invoked and succeeded (the write happens strictly after a successful
export). -/
theorem claim_C4 (cfg : SyncConfig) (o : CycleOracle ε) (s : StreamerState) :
    (∀ e, (sync_cycle cfg o s).result = .error e →
      (sync_cycle cfg o s).state = s) ∧
    ((sync_cycle cfg o s).state.checkpoint ≠ s.checkpoint →
      ∃ a b, (sync_cycle cfg o s).export_call = some (a, b) ∧
        o.export_all a b = .ok ()) := by
  refine ⟨fun e h => sync_cycle_error_unchanged cfg o s e h, ?_⟩
  intro hch
  cases ho : o.head with
  | error e0 =>
    rw [sync_cycle_head_error cfg o s e0 ho] at hch
    exact absurd rfl hch
  | ok cur =>
    by_cases hb : cycle_blocks_to_sync cfg cur s ≠ 0
    · cases hx : o.export_all (s.last_synced_block + 1)
          (cycle_target cfg cur s) with
      | error e0 =>
        rw [sync_cycle_export_err cfg o s cur e0 ho hb hx] at hch
        exact absurd rfl hch
      | ok u =>
        cases u
        rw [sync_cycle_export_ok cfg o s cur ho hb hx]
        exact ⟨s.last_synced_block + 1, cycle_target cfg cur s, rfl, hx⟩
    · rw [sync_cycle_zero cfg o s cur ho (not_not.mp hb)] at hch
      exact absurd rfl hch

theorem claim_C4_witness :
    (sync_cycle (⟨0, none, 10, 0, true⟩ : SyncConfig)
      (⟨.error .ioError, fun _ _ => .ok ()⟩ : CycleOracle PyError)
      ⟨0, 0, none⟩).state = ⟨0, 0, none⟩ :=
  (claim_C4 ⟨0, none, 10, 0, true⟩
    (⟨.error .ioError, fun _ _ => .ok ()⟩ : CycleOracle PyError)
    ⟨0, 0, none⟩).1 PyError.ioError rfl

/-- Claim C6: when a checkpoint file already exists, initializing it raises
ValueError and leaves the existing file unchanged — in particular a Streamer
constructed with an explicit start block over an existing file fails this
way; when no file exists, the start position is written as the checkpoint. -/
theorem claim_C6 :
    (∀ (sb : Int) (c : String),
      init_last_synced_block_file sb (some c) = (.error .valueError, some c)) ∧
    (∀ sb : Int,
      init_last_synced_block_file sb none
        = (.ok (), some (write_last_synced_block sb))) ∧
    (∀ (sb : Int) (c : String),
      (streamer_init (some sb) (some c)).1 = .error .valueError ∧
      (streamer_init (some sb) (some c)).2 = some c) :=
  ⟨fun _ _ => rfl, fun _ => rfl, fun _ _ => ⟨rfl, rfl⟩⟩

/-- Claim C10: writing any integer (including negative values such as -1)
with write_last_synced_block and reading the file back with
read_last_synced_block returns the same integer: the trailing newline added
on write is absorbed by the integer parse on read. -/
theorem claim_C10 (v : Int) :
    read_last_synced_block (write_last_synced_block v) = some v :=
  read_write_round_trip v

theorem sync_cycle_in_sync_mono (cfg : SyncConfig) (o : CycleOracle ε)
    (s : StreamerState) (h : checkpoint_in_sync s) :
    checkpoint_in_sync (sync_cycle cfg o s).state ∧
    s.last_synced_block ≤ (sync_cycle cfg o s).state.last_synced_block := by
  cases ho : o.head with
  | error e0 =>
    rw [sync_cycle_head_error cfg o s e0 ho]
    exact ⟨h, le_refl _⟩
  | ok cur =>
    by_cases hb : cycle_blocks_to_sync cfg cur s ≠ 0
    · have htgt : s.last_synced_block < cycle_target cfg cur s := by
        by_cases hts : cycle_target cfg cur s - s.last_synced_block ≤ 0
        · exact absurd (max_eq_right hts) hb
        · omega
      cases hx : o.export_all (s.last_synced_block + 1)
          (cycle_target cfg cur s) with
      | error e0 =>
        rw [sync_cycle_export_err cfg o s cur e0 ho hb hx]
        exact ⟨h, le_refl _⟩
      | ok u =>
        cases u
        rw [sync_cycle_export_ok cfg o s cur ho hb hx]
        constructor
        · show read_last_synced_block (write_last_synced_block
            (cycle_target cfg cur s)) = some (cycle_target cfg cur s)
          exact read_write_round_trip _
        · exact le_of_lt htgt
    · rw [sync_cycle_zero cfg o s cur ho (not_not.mp hb)]
      exact ⟨h, le_refl _⟩

theorem do_stream_in_sync_mono (cfg : SyncConfig) (os : List (CycleOracle ε))
    (s : StreamerState) (h : checkpoint_in_sync s) :
    checkpoint_in_sync (do_stream cfg os s).2 ∧
    s.last_synced_block ≤ (do_stream cfg os s).2.last_synced_block := by
  induction os generalizing s with
  | nil => exact ⟨h, le_refl _⟩
  | cons o rest ih =>
    unfold do_stream
    by_cases hcont : continue_condition cfg s = true
    · rw [if_pos hcont]
      obtain ⟨h1, h2⟩ := sync_cycle_in_sync_mono cfg o s h
      cases hr : (sync_cycle cfg o s).result with
      | error e =>
        by_cases hre : cfg.retry_errors = true
        · rw [hre]
          obtain ⟨h3, h4⟩ := ih ((sync_cycle cfg o s).state) h1
          exact ⟨h3, le_trans h2 h4⟩
        · rw [Bool.not_eq_true] at hre
          rw [hre]
          exact ⟨h1, h2⟩
      | ok k =>
        obtain ⟨h3, h4⟩ := ih ((sync_cycle cfg o s).state) h1
        exact ⟨h3, le_trans h2 h4⟩
    · rw [if_neg hcont]
      exact ⟨h, le_refl _⟩

/-- Claim C5: starting from any state whose persisted checkpoint matches the
in-memory last synced block, a single sync cycle and any run of the sync
loop keep the persisted checkpoint equal to the in-memory last synced block
and never decrease it: every checkpoint write stores a value at least the
previously stored one. -/
theorem claim_C5 (cfg : SyncConfig) (o : CycleOracle ε)
    (os : List (CycleOracle ε)) (s : StreamerState)
    (h : checkpoint_in_sync s) :
    (checkpoint_in_sync (sync_cycle cfg o s).state ∧
      s.last_synced_block ≤ (sync_cycle cfg o s).state.last_synced_block) ∧
    (checkpoint_in_sync (do_stream cfg os s).2 ∧
      s.last_synced_block ≤ (do_stream cfg os s).2.last_synced_block) :=
  ⟨sync_cycle_in_sync_mono cfg o s h, do_stream_in_sync_mono cfg os s h⟩

theorem claim_C5_witness :
    checkpoint_in_sync (do_stream (⟨0, none, 10, 0, true⟩ : SyncConfig)
      ([] : List (CycleOracle PyError))
      ⟨0, 0, some (write_last_synced_block 0)⟩).2 :=
  ((claim_C5 ⟨0, none, 10, 0, true⟩ ⟨.ok 0, fun _ _ => .ok ()⟩ []
    ⟨0, 0, some (write_last_synced_block 0)⟩
    (read_write_round_trip 0)).2).1

theorem do_stream_error_cases (cfg : SyncConfig) (os : List (CycleOracle ε))
    (s s2 : StreamerState) (e : ε) (hre : cfg.retry_errors = false)
    (h : do_stream cfg os s = (.error e, s2)) :
    ∃ o ∈ os, (sync_cycle cfg o s2).result = .error e ∧
      (sync_cycle cfg o s2).state = s2 := by
  induction os generalizing s with
  | nil =>
    rw [do_stream] at h
    simp at h
  | cons o rest ih =>
    rw [do_stream] at h
    by_cases hcont : continue_condition cfg s = true
    · rw [if_pos hcont] at h
      cases hr : (sync_cycle cfg o s).result with
      | error e0 =>
        rw [hr, hre] at h
        simp only [Bool.false_eq_true, if_false, Prod.mk.injEq] at h
        obtain ⟨he, hs⟩ := h
        have hstate : (sync_cycle cfg o s).state = s :=
          sync_cycle_error_unchanged cfg o s e0 hr
        have hs2 : s2 = s := by rw [← hs, hstate]
        refine ⟨o, List.mem_cons_self o rest, ?_, ?_⟩
        · rw [hs2, hr]
          cases he
          rfl
        · rw [hs2, hstate]
      | ok k =>
        rw [hr] at h
        obtain ⟨o2, ho2, h3, h4⟩ := ih ((sync_cycle cfg o s).state) h
        exact ⟨o2, List.mem_cons_of_mem o ho2, h3, h4⟩
    · rw [if_neg hcont] at h
      simp at h

/-- Claim C7: when retry_errors is false and the sync loop ends with a cycle
raising an error, stream() returns that same error, the returned state is
exactly the state from before the failing cycle (which itself raised the
error and wrote no checkpoint), and the finally block invoked the adapter's
close() exactly once. -/
theorem claim_C7 (cfg : SyncConfig) (os : List (CycleOracle ε))
    (s s2 : StreamerState) (e : ε) (hre : cfg.retry_errors = false)
    (h : do_stream cfg os s = (.error e, s2)) :
    (∃ o ∈ os, (sync_cycle cfg o s2).result = .error e ∧
      (sync_cycle cfg o s2).state = s2) ∧
    stream cfg (.ok ()) os s = (.error e, s2, 1) := by
  refine ⟨do_stream_error_cases cfg os s s2 e hre h, ?_⟩
  rw [stream, h]

theorem claim_C7_witness :
    stream (⟨0, none, 10, 0, false⟩ : SyncConfig) (.ok ())
      [(⟨.error .ioError, fun _ _ => .ok ()⟩ : CycleOracle PyError)]
      ⟨0, 0, none⟩ = (.error .ioError, ⟨0, 0, none⟩, 1) :=
  (claim_C7 ⟨0, none, 10, 0, false⟩
    [(⟨.error .ioError, fun _ _ => .ok ()⟩ : CycleOracle PyError)]
    ⟨0, 0, none⟩ ⟨0, 0, none⟩ PyError.ioError rfl rfl).2

/-- Claim C8: for a checkpoint file holding value C, constructing the engine
without an explicit start block resumes with last synced block C and leaves
the file unchanged; and from any state whose last synced block is C, any
export invocation a cycle performs covers a range starting at C + 1. -/
theorem claim_C8 (C : Int) (cfg : SyncConfig) (o : CycleOracle ε)
    (s : StreamerState) :
    streamer_init none (some (write_last_synced_block C))
      = (.ok C, some (write_last_synced_block C)) ∧
    (s.last_synced_block = C →
      ∀ a b, (sync_cycle cfg o s).export_call = some (a, b) → a = C + 1) := by
  constructor
  · simp [streamer_init, read_write_round_trip]
  · intro hC a b hcall
    cases ho : o.head with
    | error e0 =>
      rw [sync_cycle_head_error cfg o s e0 ho] at hcall
      exact absurd hcall (by simp)
    | ok cur =>
      by_cases hb : cycle_blocks_to_sync cfg cur s ≠ 0
      · cases hx : o.export_all (s.last_synced_block + 1)
            (cycle_target cfg cur s) with
        | error e0 =>
          rw [sync_cycle_export_err cfg o s cur e0 ho hb hx] at hcall
          simp only [Option.some.injEq, Prod.mk.injEq] at hcall
          rw [← hcall.1, hC]
        | ok u =>
          cases u
          rw [sync_cycle_export_ok cfg o s cur ho hb hx] at hcall
          simp only [Option.some.injEq, Prod.mk.injEq] at hcall
          rw [← hcall.1, hC]
      · rw [sync_cycle_zero cfg o s cur ho (not_not.mp hb)] at hcall
        exact absurd hcall (by simp)

theorem claim_C8_witness :
    streamer_init none (some (write_last_synced_block 5))
      = (.ok 5, some (write_last_synced_block 5)) ∧ (6 : Int) = 5 + 1 :=
  ⟨(claim_C8 5 ⟨0, none, 10, 0, true⟩
      (⟨.ok 7, fun _ _ => .ok ()⟩ : CycleOracle PyError) ⟨5, 0, none⟩).1,
   (claim_C8 5 ⟨0, none, 10, 0, true⟩
      (⟨.ok 7, fun _ _ => .ok ()⟩ : CycleOracle PyError) ⟨5, 0, none⟩).2
     rfl 6 7 rfl⟩

/-- Claim C9 counterexample: immediately after first-run initialization with
no start block and no existing file, the checkpoint file stores -1, a
negative integer, refuting the claim that the stored value is always
non-negative (`(self.start_block or 0) - 1` with `start_block = None`). -/
theorem claim_C9_counterexample :
    streamer_init none none = (.ok (-1), some (write_last_synced_block (-1))) ∧
    read_last_synced_block (write_last_synced_block (-1)) = some (-1) ∧
    (-1 : Int) < 0 := by
  refine ⟨?_, read_write_round_trip (-1), by decide⟩
  simp [streamer_init, init_last_synced_block_file, read_write_round_trip]

/-- Claim C9 amended: the checkpoint file always stores a decimal integer:
initialization writes (startBlock or 0) - 1, which is -1 when no start block
is given and may be negative; and every checkpoint written by a sync cycle
parses back to a value strictly greater than the previous last synced block,
hence non-negative whenever the previous value was at least -1. -/
theorem claim_C9_amended (sb : Option Int) (cfg : SyncConfig)
    (o : CycleOracle ε) (s : StreamerState) :
    (init_last_synced_block_file (sb.getD 0 - 1) none
      = (.ok (), some (write_last_synced_block (sb.getD 0 - 1)))) ∧
    (read_last_synced_block (write_last_synced_block (sb.getD 0 - 1))
      = some (sb.getD 0 - 1)) ∧
    ((sync_cycle cfg o s).state.checkpoint ≠ s.checkpoint →
      ∃ v, (sync_cycle cfg o s).state.checkpoint
          = some (write_last_synced_block v) ∧
        read_last_synced_block (write_last_synced_block v) = some v ∧
        s.last_synced_block < v ∧
        (-1 ≤ s.last_synced_block → 0 ≤ v)) := by
  refine ⟨rfl, read_write_round_trip _, ?_⟩
  intro hch
  cases ho : o.head with
  | error e0 =>
    rw [sync_cycle_head_error cfg o s e0 ho] at hch
    exact absurd rfl hch
  | ok cur =>
    by_cases hb : cycle_blocks_to_sync cfg cur s ≠ 0
    · have htgt : s.last_synced_block < cycle_target cfg cur s := by
        by_cases hts : cycle_target cfg cur s - s.last_synced_block ≤ 0
        · exact absurd (max_eq_right hts) hb
        · omega
      cases hx : o.export_all (s.last_synced_block + 1)
          (cycle_target cfg cur s) with
      | error e0 =>
        rw [sync_cycle_export_err cfg o s cur e0 ho hb hx] at hch
        exact absurd rfl hch
      | ok u =>
        cases u
        rw [sync_cycle_export_ok cfg o s cur ho hb hx]
        exact ⟨cycle_target cfg cur s, rfl, read_write_round_trip _, htgt,
          fun hge => by omega⟩
    · rw [sync_cycle_zero cfg o s cur ho (not_not.mp hb)] at hch
      exact absurd rfl hch

theorem claim_C9_witness :
    ∃ v, (sync_cycle (⟨0, none, 10, 0, true⟩ : SyncConfig)
        (⟨.ok 3, fun _ _ => .ok ()⟩ : CycleOracle PyError)
        ⟨-1, 0, none⟩).state.checkpoint = some (write_last_synced_block v) ∧
      read_last_synced_block (write_last_synced_block v) = some v ∧
      (-1 : Int) < v ∧ (-1 ≤ (-1 : Int) → 0 ≤ v) :=
  (claim_C9_amended none ⟨0, none, 10, 0, true⟩
    (⟨.ok 3, fun _ _ => .ok ()⟩ : CycleOracle PyError) ⟨-1, 0, none⟩).2.2
    (show (some (write_last_synced_block 3) : Option String) ≠ none by simp)
